import Mathlib

/-!
Verification of the Kunobi MCP multi-variant discovery-and-lifecycle manager.

This file gives a shallow embedding, in Lean, of the discovery core of the
kunobi-ninja/mcp repository:

* the response-body parser parseJsonOrSse (src/discovery.ts), which accepts
  either a plain JSON body or an SSE-framed body whose payload sits on the
  first line after a "data: " marker;
* the single-shot probe probeKunobiServer (src/discovery.ts), which performs
  the initialize handshake, checks the responder's self-reported identity,
  sends the initialized notification and requests the tool list, collapsing
  every failure mode to null (Absent);
* the VariantScanner scan cycle (src/scanner.ts): overlap guard, per-variant
  probing, registry reconciliation with a consecutive-miss counter, debounced
  teardown at a configured miss threshold, and the getStates snapshot;
* the kunobi_refresh tool handler (src/tools/refresh.ts), which runs one scan
  cycle and reports the post-cycle snapshot.

Strings manipulated character-by-character by the source are embedded as
List Char.  External collaborators (fetch, JSON.parse, the McpBundler
connection handle) are represented by environment records describing their
observable outcomes during one call; the embedded functions are translated
from the TypeScript control flow over those outcomes.  Thrown exceptions are
modelled with explicit error outcomes (Except / Bool success flags) threaded
exactly where the source's try/catch/finally blocks sit.
-/

set_option maxHeartbeats 1000000

namespace Kunobi

/-! ## Character-level string utilities (discovery.ts)

JavaScript string primitives used by parseJsonOrSse, embedded on List Char:
String.prototype.trim, String.prototype.startsWith, String.prototype.slice
and split('\n')[0]. -/

/-- Whitespace recognised by JavaScript String.prototype.trim (the ASCII
subset; these are the only whitespace characters the repository's payloads
can contain). -/
def isJsWs (c : Char) : Bool :=
  c == ' ' || c == '\t' || c == '\n' || c == '\r' || c == '\x0b' || c == '\x0c'

/-- Leading-whitespace removal, as in the left half of text.trim(). -/
def trimLeft (l : List Char) : List Char :=
  l.dropWhile isJsWs

/-- Trailing-whitespace removal, as in the right half of text.trim(). -/
def trimRight (l : List Char) : List Char :=
  (l.reverse.dropWhile isJsWs).reverse

/-- Both-ends whitespace removal: text.trim(). -/
def jsTrim (l : List Char) : List Char :=
  trimRight (trimLeft l)

/-- s.startsWith(pre), character by character. -/
def startsWithChars : List Char → List Char → Bool
  | [], _ => true
  | _ :: _, [] => false
  | a :: pre, b :: l => a == b && startsWithChars pre l

/-- s.split('\n')[0]: the characters before the first newline. -/
def firstLine (l : List Char) : List Char :=
  l.takeWhile (fun c => c != '\n')

/-- The SSE marker 'data: ' that parseJsonOrSse looks for. -/
def dataMarker : List Char := ['d', 'a', 't', 'a', ':', ' ']

/-- parseJsonOrSse from src/discovery.ts.  The JSON parser itself is an
external collaborator (JSON.parse), passed in as the function parse; this
definition captures exactly the string manipulation the source performs
before handing the payload to JSON.parse:

  const trimmed = text.trim();
  if (trimmed.startsWith('data: ')) {
    const jsonStr = trimmed.slice('data: '.length).split('\n')[0];
    return JSON.parse(jsonStr);
  }
  return JSON.parse(trimmed);
-/
def parseJsonOrSse {α : Type} (parse : List Char → α) (body : List Char) : α :=
  let trimmed := jsTrim body
  if startsWithChars dataMarker trimmed then
    parse (firstLine (trimmed.drop dataMarker.length))
  else
    parse trimmed

/-! ### Lemmas about the string utilities -/

theorem dropWhile_append_eq (p : Char → Bool) (l₁ l₂ : List Char) :
    (l₁ ++ l₂).dropWhile p =
      if (l₁.dropWhile p).isEmpty then l₂.dropWhile p else l₁.dropWhile p ++ l₂ := by
  induction l₁ with
  | nil => simp
  | cons a l ih =>
      by_cases h : p a = true
      · simpa [List.dropWhile_cons, h] using ih
      · simp [List.dropWhile_cons, h]

theorem trimRight_append (l₁ l₂ : List Char) :
    trimRight (l₁ ++ l₂) =
      if trimRight l₂ = [] then trimRight l₁ else l₁ ++ trimRight l₂ := by
  unfold trimRight
  rw [List.reverse_append, dropWhile_append_eq]
  by_cases h : (l₂.reverse.dropWhile isJsWs).isEmpty = true
  · have h2 : (l₂.reverse.dropWhile isJsWs).reverse = [] := by
      simp [List.isEmpty_iff.mp h]
    simp [h, h2]
  · have h2 : ¬((l₂.reverse.dropWhile isJsWs).reverse = []) := by
      intro hc
      exact h (by simp [List.isEmpty_iff, List.reverse_eq_nil_iff.mp hc])
    simp [h, h2]

theorem trimLeft_dataMarker (z : List Char) :
    trimLeft (dataMarker ++ z) = dataMarker ++ z := by
  simp [trimLeft, dataMarker, List.dropWhile_cons, isJsWs]

theorem startsWithChars_self_append (z : List Char) :
    startsWithChars dataMarker (dataMarker ++ z) = true := by
  simp [dataMarker, startsWithChars]

theorem firstLine_no_newline {l : List Char} (h : '\n' ∉ l) :
    firstLine l = l := by
  induction l with
  | nil => rfl
  | cons a l ih =>
      have ha : a != '\n' := by
        simp only [bne_iff_ne, ne_eq]
        intro hc; exact h (hc ▸ List.mem_cons_self a l)
      have hl : '\n' ∉ l := fun hc => h (List.mem_cons_of_mem a hc)
      simp [firstLine, List.takeWhile_cons, ha]
      simpa [firstLine] using ih hl

theorem firstLine_append_newline {l : List Char} (h : '\n' ∉ l) (r : List Char) :
    firstLine (l ++ '\n' :: r) = l := by
  induction l with
  | nil => simp [firstLine, List.takeWhile_cons]
  | cons a l ih =>
      have ha : a != '\n' := by
        simp only [bne_iff_ne, ne_eq]
        intro hc; exact h (hc ▸ List.mem_cons_self a l)
      have hl : '\n' ∉ l := fun hc => h (List.mem_cons_of_mem a hc)
      simp only [List.cons_append, firstLine, List.takeWhile_cons, ha]
      simpa [firstLine] using ih hl

theorem trimRight_newline_cons (rest : List Char) :
    trimRight ('\n' :: rest) =
      if trimRight rest = [] then [] else '\n' :: trimRight rest := by
  have h := trimRight_append ['\n'] rest
  simp only [List.singleton_append] at h
  rw [h]
  have h1 : trimRight ['\n'] = [] := by decide
  by_cases hr : trimRight rest = [] <;> simp [hr, h1]

/-- Core computation: applied to an SSE-framed body, the parser hands exactly
the payload line to JSON.parse. -/
theorem parseJsonOrSse_sse {α : Type} (parse : List Char → α)
    (payload rest : List Char)
    (hne : payload ≠ [])
    (hR : trimRight payload = payload)
    (hn : '\n' ∉ payload) :
    parseJsonOrSse parse (dataMarker ++ payload ++ '\n' :: rest) = parse payload := by
  have hLmark : trimLeft ((dataMarker ++ payload) ++ '\n' :: rest)
      = (dataMarker ++ payload) ++ '\n' :: rest := by
    rw [List.append_assoc]
    exact trimLeft_dataMarker (payload ++ '\n' :: rest)
  have hmid : trimRight (dataMarker ++ payload)
      = dataMarker ++ payload := by
    rw [trimRight_append, hR]
    simp [hne, hR]
  have hdrop : ∀ z : List Char, (dataMarker ++ z).drop dataMarker.length = z :=
    fun z => List.drop_left dataMarker z
  by_cases hcase : trimRight ('\n' :: rest) = []
  · have htrim : jsTrim (dataMarker ++ payload ++ '\n' :: rest)
        = dataMarker ++ payload := by
      unfold jsTrim
      rw [hLmark, trimRight_append, if_pos hcase, hmid]
    simp only [parseJsonOrSse]
    rw [htrim, startsWithChars_self_append, if_pos rfl, hdrop,
      firstLine_no_newline hn]
  · by_cases hr : trimRight rest = []
    · rw [trimRight_newline_cons, if_pos hr] at hcase
      exact absurd rfl hcase
    · have h2 : trimRight ('\n' :: rest) = '\n' :: trimRight rest := by
        rw [trimRight_newline_cons, if_neg hr]
      have htrim : jsTrim (dataMarker ++ payload ++ '\n' :: rest)
          = dataMarker ++ (payload ++ '\n' :: trimRight rest) := by
        unfold jsTrim
        rw [hLmark, trimRight_append, h2, if_neg (by simp), List.append_assoc]
      simp only [parseJsonOrSse]
      rw [htrim, startsWithChars_self_append, if_pos rfl, hdrop,
        firstLine_append_newline hn]

/-- Applied to a body that is already a bare trimmed payload with no marker,
the parser hands it to JSON.parse unchanged. -/
theorem parseJsonOrSse_plain {α : Type} (parse : List Char → α)
    (payload : List Char)
    (hL : trimLeft payload = payload)
    (hR : trimRight payload = payload)
    (hpfx : startsWithChars dataMarker payload = false) :
    parseJsonOrSse parse payload = parse payload := by
  simp only [parseJsonOrSse]
  simp [jsTrim, hL, hR, hpfx]

/-! ## Probe (probeKunobiServer, src/discovery.ts)

One probe performs up to three HTTP POSTs against one address: the
initialize handshake, the notifications/initialized acknowledgment, and
tools/list.  The network and the responder are external collaborators; a
ProbeEnv records the observable outcome of each of the three exchanges.  The
body of each response is represented by the outcome of running parseJsonOrSse
followed by optional chaining on the parsed JSON: Except.error () stands for
a JSON.parse exception (malformed payload), Except.ok v for a parsed value,
reduced by optional chaining to the field the source actually reads
(result?.serverInfo?.name for initialize, result?.tools names for
tools/list; a missing field is the Option none inside). -/

instance {ε α : Type} [DecidableEq ε] [DecidableEq α] : DecidableEq (Except ε α) :=
  fun a b =>
    match a, b with
    | Except.error e, Except.error e' =>
        if h : e = e' then isTrue (by rw [h]) else isFalse (by intro hc; cases hc; exact h rfl)
    | Except.error _, Except.ok _ => isFalse (by intro hc; cases hc)
    | Except.ok _, Except.error _ => isFalse (by intro hc; cases hc)
    | Except.ok v, Except.ok v' =>
        if h : v = v' then isTrue (by rw [h]) else isFalse (by intro hc; cases hc; exact h rfl)

/-- Outcome of one fetch exchange: netFail when the fetch promise rejects
(connection refused, reset, or the 3-second AbortSignal timeout); otherwise
a response with its ok flag and the parse outcome of its body. -/
inductive HttpOutcome (α : Type) where
  | netFail : HttpOutcome α
  | response (ok : Bool) (body : Except Unit α) : HttpOutcome α
  deriving DecidableEq, Repr

/-- Observable environment of one probeKunobiServer call. -/
structure ProbeEnv where
  /-- initialize exchange; parsed body reduced to result?.serverInfo?.name. -/
  init : HttpOutcome (Option String)
  /-- mcp-session-id header of the initialize response, if present.  Only
  propagated outward on the two follow-up requests; the responder's behaviour
  to those requests is already captured by notifyFails and toolsRes. -/
  session : Option String
  /-- whether the notifications/initialized fetch promise rejects (that await
  is inside the same try block, so a rejection reaches the outer catch). -/
  notifyFails : Bool
  /-- tools/list exchange; parsed body reduced to the tool names of
  result?.tools. -/
  toolsRes : HttpOutcome (Option (List String))
  deriving DecidableEq, Repr

/-- serverName.toLowerCase(), character by character. -/
def lowerChars (s : String) : List Char :=
  s.toList.map Char.toLower

/-- haystack.includes(needle), JavaScript substring containment. -/
def includesChars : List Char → List Char → Bool
  | [], needle => needle.isEmpty
  | c :: rest, needle =>
      startsWithChars needle (c :: rest) || includesChars rest needle

/-- The expected product identity token checked against the lowercased
self-reported server name. -/
def kunobiToken : List Char := ['k', 'u', 'n', 'o', 'b', 'i']

/-- A non-null probe result: { tools, serverName }. -/
structure ProbeSuccess where
  tools : List String
  serverName : String
  deriving DecidableEq, Repr

/-- probeKunobiServer from src/discovery.ts.  The whole body sits in one
try/catch whose catch returns null, so every thrown failure collapses to
none (Absent).  Control flow translated line by line:

  fetch initialize                      -- netFail: throw, caught -> none
  if (!response.ok) return null;
  parseJsonOrSse(response)              -- Except.error: throw, caught -> none
  serverName = initBody.result?.serverInfo?.name ?? '';
  if (!serverName.toLowerCase().includes('kunobi')) return null;
  fetch notifications/initialized       -- rejection: throw, caught -> none
  fetch tools/list                      -- netFail: throw, caught -> none
  if (!toolsResponse.ok) return { tools: [], serverName };
  parseJsonOrSse(toolsResponse)         -- Except.error: throw, caught -> none
  return { tools: body.result?.tools?.map(name) ?? [], serverName };
-/
def probeKunobiServer (env : ProbeEnv) : Option ProbeSuccess :=
  match env.init with
  | HttpOutcome.netFail => none
  | HttpOutcome.response ok body =>
    if !ok then none
    else
      match body with
      | Except.error _ => none
      | Except.ok nameOpt =>
        let serverName := nameOpt.getD ""
        if !(includesChars (lowerChars serverName) kunobiToken) then none
        else if env.notifyFails then none
        else
          match env.toolsRes with
          | HttpOutcome.netFail => none
          | HttpOutcome.response tOk tBody =>
            if !tOk then some ⟨[], serverName⟩
            else
              match tBody with
              | Except.error _ => none
              | Except.ok toolsOpt => some ⟨toolsOpt.getD [], serverName⟩

/-! ## VariantScanner (src/scanner.ts)

The registry this.tracked is a JavaScript Map from variant name to
TrackedVariant { bundler, port, missCount }; it is embedded as an ordered
association list (Map preserves insertion order; set on a fresh key appends,
set on an existing key updates in place).  The McpBundler connection handle
is an external collaborator: its observable interactions during one scan
cycle (constructor throw, connect rejection, close rejection) are recorded
in a CycleEnv, together with which variants' probes returned non-null this
cycle.  Queries made by getStates (bundler.getState(), bundler.getTools())
are passed as functions of the variant name. -/

/-- The registry entry for one tracked variant.  The owned bundler itself is
external; the fields the scan logic reads and writes are its port and the
consecutive-miss counter. -/
structure Tracked where
  port : Nat
  missCount : Nat
  deriving DecidableEq, Repr

/-- The scanner's mutable state: the registry and the in-flight flag. -/
structure ScannerSt where
  tracked : List (String × Tracked)
  scanning : Bool
  deriving DecidableEq, Repr

/-- Observable collaborator behaviour during one scan cycle, per variant
name: whether probeKunobiServer returned non-null, whether the McpBundler
constructor throws, whether bundler.connect() rejects (the source swallows
that rejection with .catch(() => {})), and whether bundler.close() rejects
during removal. -/
structure CycleEnv where
  responded : String → Bool
  createFails : String → Bool
  connectFails : String → Bool
  closeFails : String → Bool

/-- A cycle environment in which no connection-handle operation throws; the
probe itself never throws, so under cleanEnv the scan cycle runs to
completion. -/
def cleanEnv (env : CycleEnv) : Prop :=
  (∀ w, env.createFails w = false) ∧ (∀ w, env.closeFails w = false)

/-- Map.get on the association list (first matching key). -/
def lookupVar {β : Type} (v : String) : List (String × β) → Option β
  | [] => none
  | (k, x) :: rest => if k = v then some x else lookupVar v rest

/-- In-place reset of the miss counter of an existing entry, as in
  const tracked = this.tracked.get(variant); if (tracked) tracked.missCount = 0; -/
def resetMiss (v : String) : List (String × Tracked) → List (String × Tracked)
  | [] => []
  | (k, t) :: rest =>
      if k = v then (k, ⟨t.port, 0⟩) :: rest else (k, t) :: resetMiss v rest

/-- addVariant from src/scanner.ts.  Constructs the bundler (a constructor
throw escapes addVariant before this.tracked.set runs, so the Bool result is
false and the registry is unchanged), inserts the entry with missCount 0,
then calls bundler.connect().catch(() => {}): a connect rejection is
swallowed, so env.connectFails has no effect on the registry — the bundler's
own reconnect loop (enabled, infinite retries) owns that failure. -/
def addVariant (env : CycleEnv) (v : String) (p : Nat)
    (reg : List (String × Tracked)) : List (String × Tracked) × Bool :=
  if env.createFails v then (reg, false)
  else (reg ++ [(v, ⟨p, 0⟩)], true)

/-- First half of the scan cycle body: the loop over probeResults.  For each
entry of this.ports (in order), a non-null probe result either creates the
variant (addVariant) or resets its miss counter.  A throw inside addVariant
aborts the loop; the Bool is the no-throw flag. -/
def confirmedPhase (env : CycleEnv) :
    List (String × Nat) → List (String × Tracked) → List (String × Tracked) × Bool
  | [], reg => (reg, true)
  | (v, p) :: rest, reg =>
    if env.responded v then
      if (lookupVar v reg).isSome then
        confirmedPhase env rest (resetMiss v reg)
      else
        let r := addVariant env v p reg
        if r.2 then confirmedPhase env rest r.1 else (r.1, false)
    else
      confirmedPhase env rest reg

/-- Membership in respondedVariants as built by the first loop: the variant
appears in this.ports and its probe returned non-null. -/
def respondedSet (env : CycleEnv) (ports : List (String × Nat)) (v : String) : Bool :=
  ports.any (fun e => e.1 == v) && env.responded v

/-- Second half of the scan cycle body: the loop over this.tracked.  Every
tracked variant not in respondedVariants has its counter incremented; at
missCount >= missThreshold, removeVariant closes the bundler and deletes the
entry.  A close rejection throws out of removeVariant after the increment
but before the delete, aborting the loop with the remaining entries
untouched; the Bool is the no-throw flag. -/
def missPhase (resp closeF : String → Bool) (threshold : Nat) :
    List (String × Tracked) → List (String × Tracked) × Bool
  | [] => ([], true)
  | (v, t) :: rest =>
    if resp v then
      let r := missPhase resp closeF threshold rest
      ((v, t) :: r.1, r.2)
    else
      let t' : Tracked := ⟨t.port, t.missCount + 1⟩
      if threshold ≤ t'.missCount then
        if closeF v then ((v, t') :: rest, false)
        else missPhase resp closeF threshold rest
      else
        let r := missPhase resp closeF threshold rest
        ((v, t') :: r.1, r.2)

/-- scan from src/scanner.ts: the overlap guard, then the two reconciliation
loops inside try, with the finally block clearing this.scanning on every
exit path (normal completion or a throw in either loop). -/
def scan (ports : List (String × Nat)) (missThreshold : Nat) (env : CycleEnv)
    (s : ScannerSt) : ScannerSt :=
  if s.scanning then s
  else
    let c := confirmedPhase env ports s.tracked
    if c.2 then
      let m := missPhase (respondedSet env ports) env.closeFails missThreshold c.1
      ⟨m.1, false⟩
    else ⟨c.1, false⟩

/-! ## Snapshot (getStates) and the refresh tool -/

/-- Lifecycle phase reported by bundler.getState(). -/
inductive BundlerState where
  | idle | connecting | connected | disconnected
  deriving DecidableEq, Repr

/-- Status reported per variant in a snapshot; note there is no idle. -/
inductive VariantStatus where
  | not_detected | connecting | connected | disconnected
  deriving DecidableEq, Repr

/-- One entry of the getStates snapshot. -/
structure VariantState where
  port : Nat
  status : VariantStatus
  tools : List String
  deriving DecidableEq, Repr

/-- The status mapping in getStates:
  status: bundlerState === 'idle' ? 'connecting' : bundlerState -/
def statusOfBundler : BundlerState → VariantStatus
  | BundlerState.idle => VariantStatus.connecting
  | BundlerState.connecting => VariantStatus.connecting
  | BundlerState.connected => VariantStatus.connected
  | BundlerState.disconnected => VariantStatus.disconnected

/-- getStates from src/scanner.ts: one entry per this.ports entry; a tracked
variant reports its bundler's mapped state and prefixed tool names, an
untracked one reports not_detected with no tools.  bState and bTools are the
per-variant answers of bundler.getState() and bundler.getTools(). -/
def getStates (ports : List (String × Nat)) (reg : List (String × Tracked))
    (bState : String → BundlerState) (bTools : String → List String) :
    List (String × VariantState) :=
  ports.map (fun e =>
    match lookupVar e.1 reg with
    | some _ =>
        (e.1, ⟨e.2, statusOfBundler (bState e.1),
          (bTools e.1).map (fun t => e.1 ++ "/" ++ t)⟩)
    | none => (e.1, ⟨e.2, VariantStatus.not_detected, []⟩))

/-- The kunobi_refresh tool handler (src/tools/refresh.ts): await
scanner.scan(), then report formatRefreshResult, whose data content is
scanner.getStates() on the post-scan state (the rendering to text is
out-of-scope formatting). -/
def refreshHandler (ports : List (String × Nat)) (missThreshold : Nat)
    (env : CycleEnv) (bState : String → BundlerState)
    (bTools : String → List String) (s : ScannerSt) :
    ScannerSt × List (String × VariantState) :=
  let s' := scan ports missThreshold env s
  (s', getStates ports s'.tracked bState bTools)

/-! ### Registry lemmas -/

theorem lookupVar_append_of_some {β : Type} {v : String} {reg : List (String × β)}
    {t : β} (h : lookupVar v reg = some t) (l : List (String × β)) :
    lookupVar v (reg ++ l) = some t := by
  induction reg with
  | nil => simp [lookupVar] at h
  | cons e rest ih =>
      obtain ⟨k, x⟩ := e
      by_cases hk : k = v
      · simp [lookupVar, hk] at h ⊢; exact h
      · simp [lookupVar, hk] at h ⊢; exact ih h

theorem lookupVar_append_ne {β : Type} {v w : String} (hw : w ≠ v)
    (reg : List (String × β)) (x : β) :
    lookupVar v (reg ++ [(w, x)]) = lookupVar v reg := by
  induction reg with
  | nil => simp [lookupVar, hw]
  | cons e rest ih =>
      obtain ⟨k, y⟩ := e
      by_cases hk : k = v <;> simp [lookupVar, hk, ih]

theorem resetMiss_lookup_self {v : String} {reg : List (String × Tracked)}
    {t : Tracked} (h : lookupVar v reg = some t) :
    lookupVar v (resetMiss v reg) = some ⟨t.port, 0⟩ := by
  induction reg with
  | nil => simp [lookupVar] at h
  | cons e rest ih =>
      obtain ⟨k, x⟩ := e
      by_cases hk : k = v
      · simp [lookupVar, hk] at h
        simp [resetMiss, lookupVar, hk, ← h]
      · simp [lookupVar, hk] at h
        simp [resetMiss, lookupVar, hk, ih h]

theorem resetMiss_lookup_ne {v w : String} (hw : w ≠ v)
    (reg : List (String × Tracked)) :
    lookupVar v (resetMiss w reg) = lookupVar v reg := by
  induction reg with
  | nil => simp [resetMiss]
  | cons e rest ih =>
      obtain ⟨k, x⟩ := e
      by_cases hkw : k = w
      · subst hkw
        simp [resetMiss, lookupVar, hw]
      · by_cases hk : k = v
        · subst hk
          simp [resetMiss, lookupVar, hkw]
        · simp [resetMiss, lookupVar, hkw, hk, ih]

theorem resetMiss_keys (v : String) (reg : List (String × Tracked)) :
    (resetMiss v reg).map Prod.fst = reg.map Prod.fst := by
  induction reg with
  | nil => rfl
  | cons e rest ih =>
      obtain ⟨k, x⟩ := e
      by_cases hk : k = v <;> simp [resetMiss, hk, ih]

theorem lookupVar_eq_none_iff {β : Type} (v : String) (reg : List (String × β)) :
    lookupVar v reg = none ↔ v ∉ reg.map Prod.fst := by
  induction reg with
  | nil => simp [lookupVar]
  | cons e rest ih =>
      obtain ⟨k, x⟩ := e
      by_cases hk : k = v
      · subst hk; simp [lookupVar]
      · constructor
        · intro hnone hmem
          rcases List.mem_cons.mp hmem with h1 | h1
          · exact hk h1.symm
          · rw [lookupVar, if_neg hk] at hnone
            exact (ih.mp hnone) h1
        · intro hmem
          rw [lookupVar, if_neg hk]
          exact ih.mpr (fun hc => hmem (List.mem_cons_of_mem _ hc))

/-! ### confirmedPhase lemmas -/

theorem confirmedPhase_ok {env : CycleEnv}
    (hclean : ∀ w, env.createFails w = false)
    (ports : List (String × Nat)) (reg : List (String × Tracked)) :
    (confirmedPhase env ports reg).2 = true := by
  induction ports generalizing reg with
  | nil => rfl
  | cons e rest ih =>
      obtain ⟨v, p⟩ := e
      by_cases hr : env.responded v
      · by_cases hs : (lookupVar v reg).isSome
        · simp [confirmedPhase, hr, hs, ih]
        · simp [confirmedPhase, hr, hs, addVariant, hclean v, ih]
      · simp [confirmedPhase, hr, ih]

theorem confirmedPhase_lookup_some {env : CycleEnv}
    (hclean : ∀ w, env.createFails w = false)
    (ports : List (String × Nat)) {reg : List (String × Tracked)}
    {v : String} {t : Tracked} (h : lookupVar v reg = some t) :
    lookupVar v (confirmedPhase env ports reg).1 =
      some (if respondedSet env ports v then (⟨t.port, 0⟩ : Tracked) else t) := by
  induction ports generalizing reg t with
  | nil =>
      simp [confirmedPhase, respondedSet, h]
  | cons e rest ih =>
      obtain ⟨w, p⟩ := e
      by_cases hr : env.responded w
      · by_cases hwv : w = v
        · subst hwv
          have hs : (lookupVar w reg).isSome := by simp [h]
          have h2 : lookupVar w (resetMiss w reg) = some ⟨t.port, 0⟩ :=
            resetMiss_lookup_self h
          have := ih (t := (⟨t.port, 0⟩ : Tracked)) h2
          simp [confirmedPhase, hr, hs, this, respondedSet, hr]

        · have h2 : lookupVar v (resetMiss w reg) = lookupVar v reg :=
            resetMiss_lookup_ne hwv reg
          by_cases hs : (lookupVar w reg).isSome
          · have := ih (t := t) (h2.trans h)
            simp only [confirmedPhase, hr, if_pos rfl, hs, ite_true, this]
            have hset : respondedSet env ((w, p) :: rest) v = respondedSet env rest v := by
              have hb : (w == v) = false := beq_eq_false_iff_ne.mpr hwv
              simp [respondedSet, hb]
            rw [hset]
          · have h3 : lookupVar v (reg ++ [(w, (⟨p, 0⟩ : Tracked))]) = some t := by
              rw [lookupVar_append_ne hwv]; exact h
            have := ih (t := t) h3
            simp only [confirmedPhase, hr, if_pos rfl, hs, ite_false, addVariant,
              hclean w, ite_true, Bool.false_eq_true, this]
            have hset : respondedSet env ((w, p) :: rest) v = respondedSet env rest v := by
              have hb : (w == v) = false := beq_eq_false_iff_ne.mpr hwv
              simp [respondedSet, hb]
            rw [hset]
      · have hrw : env.responded w = false := by simpa using hr
        have := ih (t := t) h
        simp only [confirmedPhase, hrw, ite_false, Bool.false_eq_true, this]
        have hset : respondedSet env ((w, p) :: rest) v = respondedSet env rest v := by
          by_cases hwv : w = v
          · have hrv : env.responded v = false := hwv ▸ hrw
            simp [respondedSet, hrv]
          · have hb : (w == v) = false := beq_eq_false_iff_ne.mpr hwv
            simp [respondedSet, hb]
        rw [hset]

/-- The loop over probeResults never creates an entry for a variant whose
probe returned null, nor for one whose bundler constructor throws: the only
set calls are a counter reset of an existing entry and the guarded insert in
addVariant.  Holds for every environment, aborted cycles included. -/
theorem confirmedPhase_lookup_none {env : CycleEnv} {v : String}
    (hvar : env.responded v = false ∨ env.createFails v = true)
    (ports : List (String × Nat)) {reg : List (String × Tracked)}
    (h : lookupVar v reg = none) :
    lookupVar v (confirmedPhase env ports reg).1 = none := by
  induction ports generalizing reg with
  | nil => simpa [confirmedPhase]
  | cons e rest ih =>
      obtain ⟨w, p⟩ := e
      by_cases hr : env.responded w
      · by_cases hwv : w = v
        · subst hwv
          rcases hvar with h1 | h1
          · rw [h1] at hr; exact absurd hr (by simp)
          · have hs : (lookupVar w reg).isSome = false := by simp [h]
            simp [confirmedPhase, hr, hs, addVariant, h1, h]
        · by_cases hs : (lookupVar w reg).isSome
          · have h2 : lookupVar v (resetMiss w reg) = none :=
              (resetMiss_lookup_ne hwv reg).trans h
            simp only [confirmedPhase, hr, if_pos rfl, hs, ite_true]
            exact ih h2
          · have h2 : lookupVar v (reg ++ [(w, (⟨p, 0⟩ : Tracked))]) = none := by
              rw [lookupVar_append_ne hwv]; exact h
            by_cases hc : env.createFails w
            · simp [confirmedPhase, hr, hs, addVariant, hc, h]
            · simp only [confirmedPhase, hr, if_pos rfl, hs, ite_false, addVariant,
                hc, Bool.false_eq_true, ite_true]
              exact ih h2
      · have hrw : env.responded w = false := by simpa using hr
        simp only [confirmedPhase, hrw, Bool.false_eq_true, ite_false]
        exact ih h

theorem confirmedPhase_keys_nodup {env : CycleEnv}
    (ports : List (String × Nat)) {reg : List (String × Tracked)}
    (h : (reg.map Prod.fst).Nodup) :
    ((confirmedPhase env ports reg).1.map Prod.fst).Nodup := by
  induction ports generalizing reg with
  | nil => simpa [confirmedPhase]
  | cons e rest ih =>
      obtain ⟨w, p⟩ := e
      by_cases hr : env.responded w
      · by_cases hs : (lookupVar w reg).isSome
        · simp only [confirmedPhase, hr, if_pos rfl, hs, ite_true]
          exact ih (by rw [resetMiss_keys]; exact h)
        · have hw : w ∉ reg.map Prod.fst := by
            rw [← lookupVar_eq_none_iff]
            cases hl : lookupVar w reg
            · rfl
            · rw [hl] at hs; exact absurd rfl hs
          by_cases hc : env.createFails w
          · simp only [confirmedPhase, hr, if_pos rfl, hs, ite_false, addVariant, hc,
              ite_true]
            exact h
          · simp only [confirmedPhase, hr, if_pos rfl, hs, ite_false, addVariant, hc,
              Bool.false_eq_true, ite_true]
            refine ih ?_
            rw [List.map_append]
            simp only [List.map_cons, List.map_nil]
            exact List.Nodup.append h (List.nodup_singleton w)
              (by
                intro a ha hb
                rw [List.mem_singleton] at hb
                exact hw (hb ▸ ha))
      · have hrw : env.responded w = false := by simpa using hr
        simp only [confirmedPhase, hrw, Bool.false_eq_true, ite_false]
        exact ih h

/-! ### missPhase lemmas -/

/-- The loop over this.tracked never creates entries: its result's keys form
a subsequence of the input's keys.  Holds for every environment. -/
theorem missPhase_keys_sublist (resp closeF : String → Bool) (threshold : Nat)
    (l : List (String × Tracked)) :
    ((missPhase resp closeF threshold l).1.map Prod.fst).Sublist (l.map Prod.fst) := by
  induction l with
  | nil => simp [missPhase]
  | cons e rest ih =>
      obtain ⟨v, t⟩ := e
      by_cases hr : resp v
      · simpa [missPhase, hr] using ih.cons₂ v
      · have hrv : resp v = false := by simpa using hr
        by_cases hth : threshold ≤ t.missCount + 1
        · by_cases hcl : closeF v
          · simp [missPhase, hrv, hth, hcl]
          · simp only [missPhase, hrv, Bool.false_eq_true, ite_false, hth, ite_true, hcl]
            exact ih.trans (List.sublist_cons_self v (rest.map Prod.fst))
        · simpa [missPhase, hrv, hth] using ih.cons₂ v

theorem missPhase_lookup_none {resp closeF : String → Bool} {threshold : Nat}
    {v : String} {l : List (String × Tracked)} (h : lookupVar v l = none) :
    lookupVar v (missPhase resp closeF threshold l).1 = none := by
  induction l with
  | nil => simpa [missPhase]
  | cons e rest ih =>
      obtain ⟨w, t⟩ := e
      have hwv : ¬(w = v) := by
        intro hc; rw [lookupVar, if_pos hc] at h; cases h
      have hrest : lookupVar v rest = none := by
        rw [lookupVar, if_neg hwv] at h; exact h
      by_cases hr : resp w
      · simp only [missPhase, hr, ite_true, lookupVar, if_neg hwv]
        exact ih hrest
      · have hrw : resp w = false := by simpa using hr
        by_cases hth : threshold ≤ t.missCount + 1
        · by_cases hcl : closeF w
          · simp [missPhase, hrw, hth, hcl, lookupVar, hwv, hrest]
          · simp only [missPhase, hrw, Bool.false_eq_true, ite_false, hth, ite_true, hcl]
            exact ih hrest
        · simp only [missPhase, hrw, Bool.false_eq_true, ite_false, hth, ite_true]
          simp only [lookupVar, if_neg hwv]
          exact ih hrest

/-- Per-entry effect of the miss loop under a clean environment: a responding
entry is untouched, a silent one is incremented, and removed exactly when
the incremented counter reaches the threshold. -/
theorem missPhase_lookup_some (resp closeF : String → Bool) (threshold : Nat)
    (hclean : ∀ w, closeF w = false)
    {v : String} {l : List (String × Tracked)} {t : Tracked}
    (hnd : (l.map Prod.fst).Nodup) (h : lookupVar v l = some t) :
    lookupVar v (missPhase resp closeF threshold l).1 =
      if resp v then some t
      else if threshold ≤ t.missCount + 1 then none
      else some ⟨t.port, t.missCount + 1⟩ := by
  induction l with
  | nil => simp [lookupVar] at h
  | cons e rest ih =>
      obtain ⟨w, u⟩ := e
      have hnd' : (rest.map Prod.fst).Nodup := (List.nodup_cons.mp hnd).2
      by_cases hwv : w = v
      · subst hwv
        have hu : u = t := by
          rw [lookupVar, if_pos rfl] at h; exact Option.some_injective _ h
        subst hu
        have hwrest : w ∉ rest.map Prod.fst := (List.nodup_cons.mp hnd).1
        have hrestnone : lookupVar w rest = none :=
          (lookupVar_eq_none_iff w rest).mpr hwrest
        by_cases hr : resp w
        · simp [missPhase, hr, lookupVar]
        · have hrw : resp w = false := by simpa using hr
          by_cases hth : threshold ≤ u.missCount + 1
          · simp only [missPhase, hrw, Bool.false_eq_true, ite_false, hth, ite_true,
              hclean w]
            rw [missPhase_lookup_none hrestnone]
          · simp [missPhase, hrw, hth, lookupVar]
      · have hrest : lookupVar v rest = some t := by
          rw [lookupVar, if_neg hwv] at h; exact h
        have := ih hnd' hrest
        by_cases hr : resp w
        · simp only [missPhase, hr, ite_true, lookupVar, if_neg hwv]
          exact this
        · have hrw : resp w = false := by simpa using hr
          by_cases hth : threshold ≤ u.missCount + 1
          · simp only [missPhase, hrw, Bool.false_eq_true, ite_false, hth, ite_true,
              hclean w]
            exact this
          · simp only [missPhase, hrw, Bool.false_eq_true, ite_false, hth, ite_true]
            simp only [lookupVar, if_neg hwv]
            exact this

/-! ### scan-level lemmas -/

theorem scan_guard {ports : List (String × Nat)} {thr : Nat} {env : CycleEnv}
    {s : ScannerSt} (h : s.scanning = true) :
    scan ports thr env s = s := by
  simp [scan, h]

theorem scan_scanning_cleared {ports : List (String × Nat)} {thr : Nat}
    {env : CycleEnv} {s : ScannerSt} (h : s.scanning = false) :
    (scan ports thr env s).scanning = false := by
  simp only [scan, h, Bool.false_eq_true, ite_false]
  by_cases hc : (confirmedPhase env ports s.tracked).2 <;> simp [hc]

/-- Combined per-variant effect of one completed clean scan cycle on an
already-tracked variant. -/
theorem scan_lookup_tracked (ports : List (String × Nat)) (thr : Nat)
    {env : CycleEnv} {s : ScannerSt} {v : String} {t : Tracked}
    (hclean : cleanEnv env) (hs : s.scanning = false)
    (hnd : (s.tracked.map Prod.fst).Nodup)
    (ht : lookupVar v s.tracked = some t) :
    lookupVar v (scan ports thr env s).tracked =
      if respondedSet env ports v then some ⟨t.port, 0⟩
      else if thr ≤ t.missCount + 1 then none
      else some ⟨t.port, t.missCount + 1⟩ := by
  obtain ⟨hcr, hcl⟩ := hclean
  have hok : (confirmedPhase env ports s.tracked).2 = true :=
    confirmedPhase_ok hcr ports s.tracked
  have h1 := confirmedPhase_lookup_some hcr ports ht
  have hnd1 : ((confirmedPhase env ports s.tracked).1.map Prod.fst).Nodup :=
    confirmedPhase_keys_nodup ports hnd
  simp only [scan, hs, Bool.false_eq_true, ite_false, hok, ite_true]
  by_cases hresp : respondedSet env ports v
  · rw [hresp] at h1
    simp only [ite_true] at h1
    have := missPhase_lookup_some (respondedSet env ports) env.closeFails thr
      hcl hnd1 h1
    rw [hresp] at this
    simp only [ite_true] at this
    simp [hresp, this]
  · have hrespf : respondedSet env ports v = false := by simpa using hresp
    rw [hrespf] at h1
    simp only [Bool.false_eq_true, ite_false] at h1
    have := missPhase_lookup_some (respondedSet env ports) env.closeFails thr
      hcl hnd1 h1
    rw [hrespf] at this
    simp only [Bool.false_eq_true, ite_false] at this
    simp [hrespf, this]

/-- A variant that is not tracked and either did not respond or whose
bundler constructor throws is still untracked after scan, whatever else the
environment does (abort paths included). -/
theorem scan_lookup_untracked {ports : List (String × Nat)} {thr : Nat}
    {env : CycleEnv} {s : ScannerSt} {v : String}
    (hvar : env.responded v = false ∨ env.createFails v = true)
    (h : lookupVar v s.tracked = none) :
    lookupVar v (scan ports thr env s).tracked = none := by
  by_cases hs : s.scanning
  · rw [scan_guard hs]; exact h
  · have hsf : s.scanning = false := by simpa using hs
    have h1 := confirmedPhase_lookup_none hvar ports h
    simp only [scan, hsf, Bool.false_eq_true, ite_false]
    by_cases hok : (confirmedPhase env ports s.tracked).2
    · simp only [hok, ite_true]
      exact missPhase_lookup_none h1
    · simp only [hok, Bool.false_eq_true, ite_false]
      exact h1

theorem scan_keys_nodup {ports : List (String × Nat)} {thr : Nat}
    {env : CycleEnv} {s : ScannerSt}
    (hnd : (s.tracked.map Prod.fst).Nodup) :
    ((scan ports thr env s).tracked.map Prod.fst).Nodup := by
  by_cases hs : s.scanning
  · rw [scan_guard hs]; exact hnd
  · have hsf : s.scanning = false := by simpa using hs
    have hnd1 : ((confirmedPhase env ports s.tracked).1.map Prod.fst).Nodup :=
      confirmedPhase_keys_nodup ports hnd
    simp only [scan, hsf, Bool.false_eq_true, ite_false]
    by_cases hok : (confirmedPhase env ports s.tracked).2
    · simp only [hok, ite_true]
      exact hnd1.sublist
        (missPhase_keys_sublist (respondedSet env ports) env.closeFails thr _)
    · simp only [hok, Bool.false_eq_true, ite_false]
      exact hnd1

/-! ## Concrete fixtures used by the witnesses -/

/-- One configured variant, dev on port 3400, as in the scanner tests. -/
def portsDev : List (String × Nat) := [("dev", 3400)]

/-- A cycle in which no probe responds and no handle operation throws. -/
def envNone : CycleEnv :=
  ⟨fun _ => false, fun _ => false, fun _ => false, fun _ => false⟩

/-- A clean cycle in which exactly the dev variant's probe responds. -/
def envDev : CycleEnv :=
  ⟨fun v => v == "dev", fun _ => false, fun _ => false, fun _ => false⟩

/-- A cycle in which every probe responds and every bundler constructor
throws, so the first reconciliation loop throws. -/
def envCrash : CycleEnv :=
  ⟨fun _ => true, fun _ => true, fun _ => false, fun _ => false⟩

/-! ## Claims about the scan cycle -/

/-- C1: for every tracked instance, teardown (removal from the registry,
with its handle closed) happens after a completed clean scan cycle if and
only if the consecutive-miss counter reaches the configured threshold, and
for every threshold of at least 2 a single miss from a clean counter never
causes teardown.  The hypothesis missCount + 1 <= thr is the reachable-state
invariant: the counter moves up by one per silent cycle and an entry is
removed the moment it reaches the threshold, so a live entry's next value
never exceeds the threshold. -/
theorem C1_teardown_iff_threshold
    (ports : List (String × Nat)) (thr : Nat) (env : CycleEnv) (s : ScannerSt)
    (v : String) (t : Tracked)
    (hclean : cleanEnv env) (hs : s.scanning = false)
    (hnd : (s.tracked.map Prod.fst).Nodup)
    (ht : lookupVar v s.tracked = some t)
    (hinv : t.missCount + 1 ≤ thr) :
    (lookupVar v (scan ports thr env s).tracked = none ↔
      respondedSet env ports v = false ∧ t.missCount + 1 = thr)
    ∧ (2 ≤ thr → t.missCount = 0 →
        (lookupVar v (scan ports thr env s).tracked).isSome = true) := by
  have h := scan_lookup_tracked ports thr hclean hs hnd ht
  constructor
  · rw [h]
    by_cases hresp : respondedSet env ports v
    · simp [hresp]
    · have hrf : respondedSet env ports v = false := by simpa using hresp
      by_cases hth : thr ≤ t.missCount + 1
      · have heq : t.missCount + 1 = thr := Nat.le_antisymm hinv hth
        simp [hrf, hth, heq]
      · have hne2 : ¬(t.missCount + 1 = thr) := fun hc => hth (Nat.le_of_eq hc.symm)
        simp [hrf, hth, hne2]
  · intro hthr h0
    rw [h]
    by_cases hresp : respondedSet env ports v
    · simp [hresp]
    · have hrf : respondedSet env ports v = false := by simpa using hresp
      have hth : ¬(thr ≤ t.missCount + 1) := by omega
      simp [hrf, hth]

/-- C1 witness: dev is tracked at missCount 2 with threshold 3; a third
consecutive miss tears it down. -/
theorem C1_witness :
    lookupVar "dev" (scan portsDev 3 envNone ⟨[("dev", ⟨3400, 2⟩)], false⟩).tracked
      = none :=
  (C1_teardown_iff_threshold portsDev 3 envNone ⟨[("dev", ⟨3400, 2⟩)], false⟩
      "dev" ⟨3400, 2⟩ ⟨fun _ => rfl, fun _ => rfl⟩ rfl (by simp)
      (by decide) (by decide)).1.mpr ⟨by decide, rfl⟩

/-- C2: a cycle whose probe confirms a tracked instance resets its
consecutive-miss counter to exactly 0 whatever its prior value, and the
confirmed/silent alternation leaves the counter at 1 after the silent cycle,
below every threshold of at least 2, so teardown never happens. -/
theorem C2_confirmed_resets_counter
    (ports : List (String × Nat)) (thr : Nat) (env : CycleEnv) (s : ScannerSt)
    (v : String) (t : Tracked)
    (hclean : cleanEnv env) (hs : s.scanning = false)
    (hnd : (s.tracked.map Prod.fst).Nodup)
    (ht : lookupVar v s.tracked = some t)
    (hresp : respondedSet env ports v = true) :
    lookupVar v (scan ports thr env s).tracked = some ⟨t.port, 0⟩
    ∧ (∀ env₂, cleanEnv env₂ → respondedSet env₂ ports v = false → 2 ≤ thr →
        lookupVar v (scan ports thr env₂ (scan ports thr env s)).tracked
          = some ⟨t.port, 1⟩) := by
  have h1 : lookupVar v (scan ports thr env s).tracked = some ⟨t.port, 0⟩ := by
    rw [scan_lookup_tracked ports thr hclean hs hnd ht]
    simp [hresp]
  refine ⟨h1, ?_⟩
  intro env₂ hc₂ hr₂ hthr
  have hs2 : (scan ports thr env s).scanning = false := scan_scanning_cleared hs
  have hnd2 : ((scan ports thr env s).tracked.map Prod.fst).Nodup :=
    scan_keys_nodup hnd
  rw [scan_lookup_tracked ports thr hc₂ hs2 hnd2 h1]
  have hth : ¬(thr ≤ 0 + 1) := by omega
  simp [hr₂, hth]

/-- C2 witness: dev tracked at missCount 7 is reset to 0 by a confirming
cycle, and after a following silent cycle sits at 1, still tracked. -/
theorem C2_witness :
    lookupVar "dev" (scan portsDev 3 envDev ⟨[("dev", ⟨3400, 7⟩)], false⟩).tracked
      = some ⟨3400, 0⟩
    ∧ lookupVar "dev"
        (scan portsDev 3 envNone
          (scan portsDev 3 envDev ⟨[("dev", ⟨3400, 7⟩)], false⟩)).tracked
      = some ⟨3400, 1⟩ :=
  have h := C2_confirmed_resets_counter portsDev 3 envDev
    ⟨[("dev", ⟨3400, 7⟩)], false⟩ "dev" ⟨3400, 7⟩
    ⟨fun _ => rfl, fun _ => rfl⟩ rfl (by simp) (by decide) (by decide)
  ⟨h.1, h.2 envNone ⟨fun _ => rfl, fun _ => rfl⟩ (by decide) (by decide)⟩

/-- C3: the overlap guard makes a scan invoked while one is in flight an
exact no-op on the whole scanner state, and a cycle that does run leaves the
in-flight flag cleared on every exit path — the environment quantifies over
probe silence and handle-operation throws, so this includes cycles aborted
by a constructor or close throw (the finally block). -/
theorem C3_overlap_guard (ports : List (String × Nat)) (thr : Nat)
    (env : CycleEnv) (s : ScannerSt) :
    (s.scanning = true → scan ports thr env s = s)
    ∧ (s.scanning = false → (scan ports thr env s).scanning = false) :=
  ⟨fun h => scan_guard h, fun h => scan_scanning_cleared h⟩

/-- C3 witness: with a cycle in flight, a second scan changes nothing even
though dev's probe would respond; and a cycle in which every handle
constructor throws still ends with the flag cleared. -/
theorem C3_witness :
    scan portsDev 3 envDev ⟨[("dev", ⟨3400, 1⟩)], true⟩
      = ⟨[("dev", ⟨3400, 1⟩)], true⟩
    ∧ (scan portsDev 3 envCrash ⟨[], false⟩).scanning = false :=
  ⟨(C3_overlap_guard portsDev 3 envDev ⟨[("dev", ⟨3400, 1⟩)], true⟩).1 rfl,
    (C3_overlap_guard portsDev 3 envCrash ⟨[], false⟩).2 rfl⟩

/-! ## Claims about the probe -/

/-- C4: for every environment, the probe returns Absent (none) rather than
raising: a handshake transport failure or timeout, a non-success handshake
status, a malformed handshake payload, an identity mismatch, a throw of the
acknowledgment fetch, and a transport failure of the capability request each
collapse to none — the catch of the single try block is total, so no input
makes the embedded probe anything but a defined Option value. -/
theorem C4_probe_absorbs_failures (env : ProbeEnv) :
    (env.init = HttpOutcome.netFail → probeKunobiServer env = none)
    ∧ (∀ b, env.init = HttpOutcome.response false b → probeKunobiServer env = none)
    ∧ (∀ ok, env.init = HttpOutcome.response ok (Except.error ()) →
        probeKunobiServer env = none)
    ∧ (∀ n, env.init = HttpOutcome.response true (Except.ok n) →
        includesChars (lowerChars (n.getD "")) kunobiToken = false →
        probeKunobiServer env = none)
    ∧ (env.notifyFails = true → probeKunobiServer env = none)
    ∧ (env.toolsRes = HttpOutcome.netFail → probeKunobiServer env = none) := by
  refine ⟨?_, ?_, ?_, ?_, ?_, ?_⟩
  · intro h
    simp [probeKunobiServer, h]
  · intro b h
    simp [probeKunobiServer, h]
  · intro ok h
    cases ok <;> simp [probeKunobiServer, h]
  · intro n h hid
    simp [probeKunobiServer, h, hid]
  · intro h
    unfold probeKunobiServer
    cases hinit : env.init with
    | netFail => rfl
    | response ok body =>
        cases ok with
        | false => rfl
        | true =>
            cases body with
            | error e => rfl
            | ok nameOpt => simp [h]
  · intro h
    unfold probeKunobiServer
    cases hinit : env.init with
    | netFail => rfl
    | response ok body =>
        cases ok with
        | false => rfl
        | true =>
            cases body with
            | error e => rfl
            | ok nameOpt => simp [h]

/-- A probe whose very first fetch rejects (nothing listening). -/
def probeEnvNetFail : ProbeEnv :=
  ⟨HttpOutcome.netFail, none, false, HttpOutcome.netFail⟩

/-- C4 witness: a probe against a dead address evaluates to none. -/
theorem C4_witness : probeKunobiServer probeEnvNetFail = none :=
  (C4_probe_absorbs_failures probeEnvNetFail).1 rfl

/-- C5: a responder whose self-reported identity string does not contain the
product token kunobi as a case-insensitive substring is rejected as Absent
even though its handshake payload was well formed, and an untracked address
whose probe result is Absent is never adopted into the registry by a scan
cycle; the concrete identity some-other-service fails the containment
check. -/
theorem C5_identity_mismatch_rejected (penv : ProbeEnv) (n : String)
    (hinit : penv.init = HttpOutcome.response true (Except.ok (some n)))
    (hid : includesChars (lowerChars n) kunobiToken = false) :
    probeKunobiServer penv = none
    ∧ includesChars (lowerChars "some-other-service") kunobiToken = false
    ∧ (∀ ports thr env s v, env.responded v = (probeKunobiServer penv).isSome →
        lookupVar v s.tracked = none →
        lookupVar v (scan ports thr env s).tracked = none) := by
  have h1 : probeKunobiServer penv = none := by
    simp [probeKunobiServer, hinit, hid]
  refine ⟨h1, by decide, ?_⟩
  intro ports thr env s v hresp hnone
  rw [h1] at hresp
  simp only [Option.isSome_none] at hresp
  exact scan_lookup_untracked (Or.inl hresp) hnone

/-- A live unrelated service: well-formed handshake and capability payloads
under the identity some-other-service. -/
def probeEnvOther : ProbeEnv :=
  ⟨HttpOutcome.response true (Except.ok (some "some-other-service")), none, false,
    HttpOutcome.response true (Except.ok (some ["a"]))⟩

/-- C5 witness: the unrelated service is probed as Absent, and a scan cycle
fed that Absent result leaves the address untracked. -/
theorem C5_witness :
    probeKunobiServer probeEnvOther = none
    ∧ lookupVar "dev" (scan portsDev 3 envNone (⟨[], false⟩ : ScannerSt)).tracked
        = none :=
  have h := C5_identity_mismatch_rejected probeEnvOther "some-other-service"
    rfl (by decide)
  ⟨h.1, h.2.2 portsDev 3 envNone ⟨[], false⟩ "dev" (by rw [h.1]; rfl) rfl⟩

/-- An identity-confirmed probe whose capability response is a 200 with an
unparseable body. -/
def probeEnvBadToolsBody : ProbeEnv :=
  ⟨HttpOutcome.response true (Except.ok (some "Kunobi")), none, false,
    HttpOutcome.response true (Except.error ())⟩

/-- C6 counterexample: the claim says a malformed capability-response body
after a confirmed identity yields Confirmed with zero capabilities, but on
an identity-confirmed probe (the token check on Kunobi passes) whose
tools/list body fails to parse, the JSON.parse throw reaches the outer catch
and the probe returns none — Absent, not Confirmed. -/
theorem C6_counterexample :
    includesChars (lowerChars "Kunobi") kunobiToken = true
    ∧ probeKunobiServer probeEnvBadToolsBody = none := by
  exact ⟨by decide, by decide⟩

/-- C6 as amended: after a confirmed identity, a non-success capability
response yields Confirmed with an empty capability list, and a capability
body that parses but lacks the expected result.tools field also yields
Confirmed with zero capabilities; only an unparseable capability body (a
JSON.parse throw) yields Absent. -/
theorem C6_capability_failures_confirmed (env : ProbeEnv) (n : Option String)
    (hinit : env.init = HttpOutcome.response true (Except.ok n))
    (hid : includesChars (lowerChars (n.getD "")) kunobiToken = true)
    (hnotify : env.notifyFails = false) :
    (∀ b, env.toolsRes = HttpOutcome.response false b →
        probeKunobiServer env = some ⟨[], n.getD ""⟩)
    ∧ (env.toolsRes = HttpOutcome.response true (Except.ok none) →
        probeKunobiServer env = some ⟨[], n.getD ""⟩)
    ∧ (env.toolsRes = HttpOutcome.response true (Except.error ()) →
        probeKunobiServer env = none) := by
  refine ⟨?_, ?_, ?_⟩
  · intro b h
    simp [probeKunobiServer, hinit, hid, hnotify, h]
  · intro h
    simp [probeKunobiServer, hinit, hid, hnotify, h]
  · intro h
    simp [probeKunobiServer, hinit, hid, hnotify, h]

/-- An identity-confirmed probe whose capability request gets a 4xx. -/
def probeEnvToolsNotOk : ProbeEnv :=
  ⟨HttpOutcome.response true (Except.ok (some "Kunobi Dev")), some "sess", false,
    HttpOutcome.response false (Except.ok none)⟩

/-- C6 witness: identity confirmed, capability request non-success — the
probe is Confirmed with an empty tool list. -/
theorem C6_witness :
    probeKunobiServer probeEnvToolsNotOk = some ⟨[], "Kunobi Dev"⟩ :=
  (C6_capability_failures_confirmed probeEnvToolsNotOk (some "Kunobi Dev")
    rfl (by decide) rfl).1 (Except.ok none) rfl

/-! ## Remaining claims -/

/-- C7: the kunobi_refresh handler awaits exactly one scan cycle and only
then builds its report, so the snapshot it returns is getStates of the
post-cycle registry; and it respects the overlap guard — triggered while a
cycle is in flight, the scan inside it is a no-op, the scanner state is
untouched and the report reflects the pre-existing registry rather than a
second concurrently-executed cycle. -/
theorem C7_refresh_reports_completed_cycle (ports : List (String × Nat))
    (thr : Nat) (env : CycleEnv) (bState : String → BundlerState)
    (bTools : String → List String) (s : ScannerSt) :
    (refreshHandler ports thr env bState bTools s).2
      = getStates ports (scan ports thr env s).tracked bState bTools
    ∧ (s.scanning = true →
        (refreshHandler ports thr env bState bTools s).1 = s
        ∧ (refreshHandler ports thr env bState bTools s).2
            = getStates ports s.tracked bState bTools) := by
  refine ⟨rfl, fun h => ?_⟩
  have hg : scan ports thr env s = s := scan_guard h
  exact ⟨by simp [refreshHandler, hg], by simp [refreshHandler, hg]⟩

/-- C7 witness: refresh triggered while a cycle is in flight leaves the
scanner state untouched. -/
theorem C7_witness :
    (refreshHandler portsDev 3 envDev (fun _ => BundlerState.idle)
      (fun _ => []) ⟨[], true⟩).1 = (⟨[], true⟩ : ScannerSt) :=
  ((C7_refresh_reports_completed_cycle portsDev 3 envDev
    (fun _ => BundlerState.idle) (fun _ => []) ⟨[], true⟩).2 rfl).1

/-- C8: for every JSON payload (no interior newline, no surrounding
whitespace, not itself starting with the SSE marker) and every parser, the
SSE-framed body — the marker, the payload, a newline and arbitrary further
stream characters — parses to exactly the same value as the bare payload:
both paths hand the identical payload string to JSON.parse. -/
theorem C8_sse_parses_as_plain {α : Type} (parse : List Char → α)
    (payload rest : List Char)
    (hne : payload ≠ [])
    (hL : trimLeft payload = payload)
    (hR : trimRight payload = payload)
    (hn : '\n' ∉ payload)
    (hpfx : startsWithChars dataMarker payload = false) :
    parseJsonOrSse parse (dataMarker ++ payload ++ '\n' :: rest)
      = parseJsonOrSse parse payload
    ∧ parseJsonOrSse parse payload = parse payload := by
  have h1 := parseJsonOrSse_sse parse payload rest hne hR hn
  have h2 := parseJsonOrSse_plain parse payload hL hR hpfx
  exact ⟨h1.trans h2.symm, h2⟩

/-- The spec's concrete example payload, the character list of the text
{"result":{"value":42}}. -/
def exampleJson : List Char :=
  ("\x7b\"result\":\x7b\"value\":42\x7d\x7d").toList

/-- C8 witness: the body data: {"result":{"value":42}} followed by two
newlines parses identically to the bare payload. -/
theorem C8_witness :
    parseJsonOrSse (fun l => l) (dataMarker ++ exampleJson ++ '\n' :: ['\n'])
      = parseJsonOrSse (fun l => l) exampleJson :=
  (C8_sse_parses_as_plain (fun l => l) exampleJson ['\n']
    (by decide) (by decide) (by decide) (by decide) (by decide)).1

/-- A clean cycle in which dev's probe responds and dev's freshly created
bundler's connect() rejects (which addVariant swallows with catch). -/
def envConnectFailDev : CycleEnv :=
  ⟨fun v => v == "dev", fun _ => false, fun v => v == "dev", fun _ => false⟩

/-- C9 counterexample: the claim says a connection-establishment failure for
a newly confirmed address leaves no TrackedInstance for that address at the
end of the cycle; but in the cycle below dev is newly confirmed, its
bundler's connect() rejects, and dev is nonetheless tracked (missCount 0)
when the cycle ends — bundler.connect().catch(() => \x7b\x7d) swallows the
rejection after this.tracked.set has already run. -/
theorem C9_counterexample :
    envConnectFailDev.connectFails "dev" = true
    ∧ lookupVar "dev"
        (scan portsDev 3 envConnectFailDev (⟨[], false⟩ : ScannerSt)).tracked
      = some ⟨3400, 0⟩ := by
  exact ⟨by decide, by decide⟩

/-- C9 as amended: only a connection-handle creation failure (the McpBundler
constructor throwing before this.tracked.set) leaves no TrackedInstance for
a newly confirmed address at the end of the cycle; a connection-establishment
failure is swallowed and the freshly inserted TrackedInstance remains, its
reconnection owned by the handle itself. -/
theorem C9_creation_failure_leaves_untracked (ports : List (String × Nat))
    (thr : Nat) (env : CycleEnv) (s : ScannerSt) (v : String)
    (hcf : env.createFails v = true)
    (hnone : lookupVar v s.tracked = none) :
    lookupVar v (scan ports thr env s).tracked = none :=
  scan_lookup_untracked (Or.inr hcf) hnone

/-- A cycle in which dev's probe responds but dev's bundler constructor
throws. -/
def envCreateFailDev : CycleEnv :=
  ⟨fun v => v == "dev", fun v => v == "dev", fun _ => false, fun _ => false⟩

/-- C9 witness: with dev newly confirmed but its handle construction
throwing, dev is still untracked at the end of the cycle. -/
theorem C9_witness :
    lookupVar "dev"
      (scan portsDev 3 envCreateFailDev (⟨[], false⟩ : ScannerSt)).tracked
      = none :=
  C9_creation_failure_leaves_untracked portsDev 3 envCreateFailDev
    ⟨[], false⟩ "dev" (by decide) rfl

/-- C10: getStates returns exactly one entry per configured variant, in
configuration order; an untracked variant is reported not_detected with an
empty tool list; a tracked variant whose bundler reports the lifecycle phase
idle is reported as connecting.  The snapshot status type VariantStatus has
exactly the four constructors not_detected, connecting, connected and
disconnected and no idle, so no snapshot can carry an idle status. -/
theorem C10_snapshot_shape (ports : List (String × Nat))
    (reg : List (String × Tracked)) (bState : String → BundlerState)
    (bTools : String → List String) :
    (getStates ports reg bState bTools).map Prod.fst = ports.map Prod.fst
    ∧ ∀ v st, (v, st) ∈ getStates ports reg bState bTools →
        (lookupVar v reg = none →
          st.status = VariantStatus.not_detected ∧ st.tools = [])
        ∧ (∀ u, lookupVar v reg = some u → bState v = BundlerState.idle →
            st.status = VariantStatus.connecting) := by
  constructor
  · induction ports with
    | nil => rfl
    | cons e rest ih =>
        obtain ⟨w, p⟩ := e
        cases hl : lookupVar w reg <;>
          simpa [getStates, hl] using ih
  · intro v st hmem
    simp only [getStates, List.mem_map] at hmem
    obtain ⟨⟨w, p⟩, hme, hfe⟩ := hmem
    cases hl : lookupVar w reg with
    | none =>
        rw [hl] at hfe
        have hw : w = v := congrArg Prod.fst hfe
        have hst : st = ⟨p, VariantStatus.not_detected, []⟩ :=
          (congrArg Prod.snd hfe).symm
        subst hw
        constructor
        · intro _
          rw [hst]
          exact ⟨rfl, rfl⟩
        · intro u hu _
          rw [hl] at hu
          cases hu
    | some u0 =>
        rw [hl] at hfe
        have hw : w = v := congrArg Prod.fst hfe
        have hst : st = ⟨p, statusOfBundler (bState w),
            (bTools w).map (fun t => w ++ "/" ++ t)⟩ :=
          (congrArg Prod.snd hfe).symm
        subst hw
        constructor
        · intro hnone
          rw [hl] at hnone
          cases hnone
        · intro u _ hidle
          rw [hst]
          simp [hidle, statusOfBundler]

/-- C10 witness: with dev configured but untracked and its bundler idle, the
snapshot has exactly the key dev and reports it not_detected with no
tools. -/
theorem C10_witness :
    (getStates portsDev [] (fun _ => BundlerState.idle)
        (fun _ => [])).map Prod.fst = ["dev"]
    ∧ (⟨3400, VariantStatus.not_detected, []⟩ : VariantState).status
        = VariantStatus.not_detected
    ∧ (⟨3400, VariantStatus.not_detected, []⟩ : VariantState).tools = [] :=
  have h := C10_snapshot_shape portsDev [] (fun _ => BundlerState.idle)
    (fun _ => [])
  have h2 := (h.2 "dev" ⟨3400, VariantStatus.not_detected, []⟩ (by decide)).1 rfl
  ⟨h.1, h2.1, h2.2⟩

end Kunobi
